import Mathlib

/-!
Shallow embedding of the finance_manager transaction-processing core:
the domain data model (internal/domain), the transaction validator
(pkg/validator), the fraud detector (internal/processor/fraud_detector.go),
the rule engine and the transaction processor (pkg/crypto/signer.go holds
the processor and rule-engine sources in this snapshot).

Go float64 amounts and balances are modelled as rationals (the claims under
study concern only addition, subtraction and order), Go `int` as `Int`,
Go maps keyed by strings as association lists, and wall-clock inputs
(current hour, the "created more than five minutes in the future" test)
as explicit parameters.  Fallible Go functions returning `error` are
modelled with `Option`/`Except`; a write to a nil Go map is modelled as an
explicit panic outcome.
-/

/-- Transaction type constants from internal/domain (deposit, withdrawal,
transfer). -/
inductive TransactionType
  | deposit
  | withdrawal
  | transfer
deriving DecidableEq

/-- Transaction status constants from internal/domain. -/
inductive TransactionStatus
  | pending
  | processing
  | completed
  | failed
  | suspicious
deriving DecidableEq

/-- Account status constants from internal/domain. -/
inductive AccountStatus
  | active
  | suspended
  | closed
deriving DecidableEq

/-- domain.Transaction.  `metadata` is `none` when the Go map is nil
(reads on a nil map yield "absent", writes panic); timestamps that the
embedded code never branches on are omitted. -/
structure Transaction where
  id : String
  txType : TransactionType
  amount : ℚ
  currency : String
  fromAccountID : String
  toAccountID : String
  status : TransactionStatus
  metadata : Option (List (String × String))
  riskScore : Int
  fraudFlags : List String
deriving DecidableEq

/-- domain.Account (fields the embedded core reads or writes). -/
structure Account where
  id : String
  balance : ℚ
  currency : String
  status : AccountStatus
  dailyLimit : ℚ
  monthlyLimit : ℚ
deriving DecidableEq

/-- Read of `m[k]` on a Go string map modelled as an association list;
a nil map (`none`) behaves as empty for reads. -/
def mlookup (m : Option (List (String × String))) (k : String) : Option String :=
  match m with
  | none => none
  | some l => (l.find? (fun p => p.1 == k)).map (fun p => p.2)

/-- Go map write `m[k] = v` on a non-nil map: replace the entry if the key
is present, else append it. -/
def mapSet (m : List (String × String)) (k v : String) : List (String × String) :=
  if m.any (fun p => p.1 == k) then
    m.map (fun p => if p.1 == k then (k, v) else p)
  else m ++ [(k, v)]

/-! ## Validator (pkg/validator TransactionValidator.ValidateTransaction) -/

/-- The individual violations collected by ValidateTransaction. -/
inductive VErr
  | invalidAmount
  | invalidCurrency
  | invalidAccount
  | sameAccount
  | futureDate
deriving DecidableEq

/-- Outcome of one ValidateTransaction call. -/
inductive ValidateOutcome
  | ok
  | duplicate
  | aggregated (errs : List VErr)
deriving DecidableEq

/-- The currency pattern from the validator, a 3-uppercase-letter match. -/
def currencyOK (s : String) : Bool :=
  s.length == 3 && s.toList.all (fun c => 'A' ≤ c && c ≤ 'Z')

/-- The violations accumulated by ValidateTransaction, in source order:
amount ≤ 0; currency pattern; for transfers a missing account and
source = destination; creation timestamp more than 5 minutes in the
future (the wall-clock comparison is passed in as `futureDated`). -/
def collectErrs (tx : Transaction) (futureDated : Bool) : List VErr :=
  (if tx.amount ≤ 0 then [VErr.invalidAmount] else [])
    ++ (if currencyOK tx.currency then [] else [VErr.invalidCurrency])
    ++ (if tx.txType = TransactionType.transfer then
          (if tx.fromAccountID = "" ∨ tx.toAccountID = "" then [VErr.invalidAccount] else [])
            ++ (if tx.fromAccountID = tx.toAccountID then [VErr.sameAccount] else [])
        else [])
    ++ (if futureDated then [VErr.futureDate] else [])

/-- TransactionValidator.ValidateTransaction.  `seen` is the validator's
duplicate-ID set; the call returns the outcome together with the new set.
The duplicate check runs after the list of violations is built: a repeated
ID short-circuits with the distinct duplicate outcome and leaves the set
unchanged, while a first-time ID is registered even when violations were
found. -/
def validateTransaction (seen : List String) (tx : Transaction) (futureDated : Bool) :
    ValidateOutcome × List String :=
  let errs := collectErrs tx futureDated
  if seen.contains tx.id then (ValidateOutcome.duplicate, seen)
  else
    let seen' := tx.id :: seen
    if errs.isEmpty then (ValidateOutcome.ok, seen')
    else (ValidateOutcome.aggregated errs, seen')

/-! ## FraudDetector (internal/processor/fraud_detector.go) -/

/-- The large_amount detector: amount exceeds 10000. -/
def detectLargeAmount (tx : Transaction) : Bool × String :=
  (decide (tx.amount > 10000), "large_amount")

/-- The frequent_transactions detector: amount above 5000 with the current
hour before 6. -/
def detectFrequentTransactions (tx : Transaction) (hour : Nat) : Bool × String :=
  (decide (tx.amount > 5000) && decide (hour < 6), "frequent_transactions")

/-- The geographical_anomaly detector: the metadata location entry equals
the flagged value.  With no location entry the detector yields (false, ""). -/
def detectGeographicalAnomaly (tx : Transaction) : Bool × String :=
  match mlookup tx.metadata "location" with
  | some location => (location == "high_risk_country", "geographical_anomaly")
  | none => (false, "")

/-- The velocity_check detector: the metadata velocity entry equals "high";
note that the flag it emits is spelled "velocity_anomaly" in the source. -/
def detectVelocityAnomaly (tx : Transaction) : Bool × String :=
  match mlookup tx.metadata "velocity" with
  | some velocity => if velocity == "high" then (true, "velocity_anomaly") else (false, "")
  | none => (false, "")

/-- The fixed detector registry built by NewFraudDetector, in source order,
paired with its weights. -/
def fraudPatterns (hour : Nat) : List ((Transaction → Bool × String) × Int) :=
  [(detectLargeAmount, 30),
   (fun tx => detectFrequentTransactions tx hour, 25),
   (detectGeographicalAnomaly, 35),
   (detectVelocityAnomaly, 40)]

/-- FraudDetector.applyTimeBasedModifiers: a flat +15 in the late-night
window (hour ≥ 23 or hour ≤ 5). -/
def applyTimeBasedModifiers (hour : Nat) (baseScore : Int) : Int :=
  if hour ≥ 23 ∨ hour ≤ 5 then baseScore + 15 else baseScore

/-- FraudDetector.AnalyzeTransaction: sum the weights of the triggered
detectors collecting their flags in registry order, apply the time-of-day
surcharge only to a nonzero sum, and cap the score at 100. -/
def analyzeTransaction (tx : Transaction) (hour : Nat) : Int × List String :=
  let base := (fraudPatterns hour).foldl
    (fun (acc : Int × List String) p =>
      let d := p.1 tx
      if d.1 then (acc.1 + p.2, acc.2 ++ [d.2]) else acc)
    (0, [])
  let riskScore := if base.1 > 0 then applyTimeBasedModifiers hour base.1 else base.1
  (min riskScore 100, base.2)

/-! ## Account store (internal/repository/memory AccountRepository)

The in-memory repository keeps accounts in a map keyed by their ID;
`GetByID` returns the stored record (an error when absent) and `Update`
overwrites the stored record, failing when the ID is absent.  The map is
modelled as a list of accounts looked up by ID. -/

/-- AccountRepository.GetByID: the stored account with this ID, if any. -/
def getByID (accounts : List Account) (id : String) : Option Account :=
  accounts.find? (fun a => a.id == id)

/-- AccountRepository.Update: replace the stored record with this account's
ID; `none` models the not-found error (the store is then unchanged). -/
def updateAccount (accounts : List Account) (account : Account) : Option (List Account) :=
  if accounts.any (fun a => a.id == account.id) then
    some (accounts.map (fun a => if a.id == account.id then account else a))
  else none

/-- The errors a ledger operation can return, one constructor per distinct
return in processTransfer/processDeposit/processWithdrawal and their limit
checks. -/
inductive PErr
  | getFromAccountFailed
  | getToAccountFailed
  | currencyMismatch
  | fromAccountNotActive
  | toAccountNotActive
  | accountNotActive
  | insufficientFunds
  | dailyLimitExceeded
  | monthlyLimitExceeded
  | depositLimitExceeded
  | withdrawalLimitExceeded
  | fromAccountRequired
  | toAccountRequired
  | updateFailed
deriving DecidableEq

/-- TransactionProcessor.checkAccountLimits.  The repository volume
queries are modelled by the `dailyVolume` and `monthlyVolume` inputs; a
nonpositive configured limit disables the corresponding check. -/
def checkAccountLimits (account : Account) (tx : Transaction)
    (dailyVolume monthlyVolume : ℚ) : Option PErr :=
  if account.dailyLimit > 0 ∧ dailyVolume + tx.amount > account.dailyLimit then
    some PErr.dailyLimitExceeded
  else if account.monthlyLimit > 0 ∧ monthlyVolume + tx.amount > account.monthlyLimit then
    some PErr.monthlyLimitExceeded
  else none

/-- TransactionProcessor.checkDepositLimits: fixed 50000 per-call ceiling. -/
def checkDepositLimits (tx : Transaction) : Option PErr :=
  if tx.amount > 50000 then some PErr.depositLimitExceeded else none

/-- TransactionProcessor.checkWithdrawalLimits: fixed 5000 daily ceiling
over the completed withdrawals of the day, whose repository-computed sum
is the `dailyWithdrawal` input. -/
def checkWithdrawalLimits (tx : Transaction) (dailyWithdrawal : ℚ) : Option PErr :=
  if dailyWithdrawal + tx.amount > 5000 then some PErr.withdrawalLimitExceeded else none

/-- TransactionProcessor.processTransfer.  The result pairs the account
store after the call with the returned error, because the compensation
path mutates the store and still returns an error: after a successful
source debit but failed destination persist, the amount is re-credited
onto the source object and the source update re-issued best-effort. -/
def processTransfer (accounts : List Account) (tx : Transaction)
    (dailyVolume monthlyVolume : ℚ) : List Account × Option PErr :=
  match getByID accounts tx.fromAccountID with
  | none => (accounts, some PErr.getFromAccountFailed)
  | some fromAccount =>
    match getByID accounts tx.toAccountID with
    | none => (accounts, some PErr.getToAccountFailed)
    | some toAccount =>
      if fromAccount.currency ≠ toAccount.currency then
        (accounts, some PErr.currencyMismatch)
      else if fromAccount.status ≠ AccountStatus.active then
        (accounts, some PErr.fromAccountNotActive)
      else if toAccount.status ≠ AccountStatus.active then
        (accounts, some PErr.toAccountNotActive)
      else if fromAccount.balance < tx.amount then
        (accounts, some PErr.insufficientFunds)
      else
        match checkAccountLimits fromAccount tx dailyVolume monthlyVolume with
        | some e => (accounts, some e)
        | none =>
          let fromAccount' := { fromAccount with balance := fromAccount.balance - tx.amount }
          let toAccount' := { toAccount with balance := toAccount.balance + tx.amount }
          match updateAccount accounts fromAccount' with
          | none => (accounts, some PErr.updateFailed)
          | some accounts1 =>
            match updateAccount accounts1 toAccount' with
            | some accounts2 => (accounts2, none)
            | none =>
              let compensated :=
                { fromAccount' with balance := fromAccount'.balance + tx.amount }
              ((updateAccount accounts1 compensated).getD accounts1,
                some PErr.updateFailed)

/-- TransactionProcessor.processDeposit. -/
def processDeposit (accounts : List Account) (tx : Transaction) :
    List Account × Option PErr :=
  if tx.toAccountID = "" then (accounts, some PErr.toAccountRequired)
  else
    match getByID accounts tx.toAccountID with
    | none => (accounts, some PErr.getToAccountFailed)
    | some toAccount =>
      if toAccount.status ≠ AccountStatus.active then
        (accounts, some PErr.accountNotActive)
      else
        match checkDepositLimits tx with
        | some e => (accounts, some e)
        | none =>
          let toAccount' := { toAccount with balance := toAccount.balance + tx.amount }
          match updateAccount accounts toAccount' with
          | none => (accounts, some PErr.updateFailed)
          | some accounts' => (accounts', none)

/-- TransactionProcessor.processWithdrawal. -/
def processWithdrawal (accounts : List Account) (tx : Transaction)
    (dailyWithdrawal : ℚ) : List Account × Option PErr :=
  if tx.fromAccountID = "" then (accounts, some PErr.fromAccountRequired)
  else
    match getByID accounts tx.fromAccountID with
    | none => (accounts, some PErr.getFromAccountFailed)
    | some fromAccount =>
      if fromAccount.status ≠ AccountStatus.active then
        (accounts, some PErr.accountNotActive)
      else if fromAccount.balance < tx.amount then
        (accounts, some PErr.insufficientFunds)
      else
        match checkWithdrawalLimits tx dailyWithdrawal with
        | some e => (accounts, some e)
        | none =>
          let fromAccount' := { fromAccount with balance := fromAccount.balance - tx.amount }
          match updateAccount accounts fromAccount' with
          | none => (accounts, some PErr.updateFailed)
          | some accounts' => (accounts', none)

/-- The repository-computed volume figures consumed by the limit checks
(transaction-store queries GetDailyVolume, GetMonthlyVolume and the
completed-withdrawal sum of getDailyWithdrawal). -/
structure Volumes where
  dailyVolume : ℚ
  monthlyVolume : ℚ
  dailyWithdrawal : ℚ
deriving DecidableEq

/-- TransactionProcessor.executeTransaction: the per-type ledger dispatch.
In the source this whole body runs under the processor's single mutex
(p.mu), so each invocation is one atomic mutation step process-wide; the
embedding therefore treats it as one step function on the account store.
The Go default branch (unknown type string) is unreachable here because
the embedded type is the closed three-constant enumeration. -/
def executeTransaction (accounts : List Account) (tx : Transaction) (vols : Volumes) :
    List Account × Option PErr :=
  match tx.txType with
  | TransactionType.transfer => processTransfer accounts tx vols.dailyVolume vols.monthlyVolume
  | TransactionType.deposit => processDeposit accounts tx
  | TransactionType.withdrawal => processWithdrawal accounts tx vols.dailyWithdrawal

/-! ## RuleEngine (package processor, rule evaluation)

Rule conditions and actions are stored as JSON strings and decoded with
json.Unmarshal into empty-interface-typed values.  `JValue` models
the dynamic values json.Unmarshal produces: strings, numbers (float64),
booleans, null, arrays and objects.  A Go type assertion such as
`condition.Value.(string)` succeeds exactly on the matching constructor;
the assertion `condition.Value.([]string)` in the source can never succeed
on a json.Unmarshal result, because a decoded array is always a slice of
empty interfaces, not of strings. -/

/-- Dynamic JSON-decoded value. -/
inductive JValue
  | str (s : String)
  | num (x : ℚ)
  | jbool (b : Bool)
  | jnull
  | arr (elems : List JValue)
  | obj (fields : List (String × JValue))

/-- Condition expression schema from the rule engine. -/
structure Condition where
  field : String
  operator : String
  value : JValue

/-- RuleAction expression schema from the rule engine. -/
structure RuleAction where
  actionType : String
  params : List (String × JValue)
  message : String

/-- The zero value of RuleAction left on non-triggered results. -/
def emptyRuleAction : RuleAction :=
  { actionType := "", params := [], message := "" }

/-- domain.Rule as the rule engine consumes it.  The stored condition and
action are JSON strings parsed on every evaluation; the `condition` and
`action` fields here carry the outcome of that json.Unmarshal (an
`Except.error` models a parse failure of the stored string). -/
structure Rule where
  id : String
  name : String
  description : String
  condition : Except String Condition
  action : Except String RuleAction
  priority : Int
  isActive : Bool

/-- RuleResult from the rule engine. -/
structure RuleResult where
  ruleID : String
  ruleName : String
  triggered : Bool
  action : RuleAction
  description : String

/-- Rendering used by fmt.Sprintf("%v", x) on a JSON-decoded value inside
checkMetadataCondition.  The values compared there against transaction
metadata are strings in every well-formed rule; the non-string renderings
approximate Go's formatting and are exercised by no claim. -/
def goFormat : JValue → String
  | JValue.str s => s
  | JValue.num x => toString x
  | JValue.jbool b => if b then "true" else "false"
  | JValue.jnull => "<nil>"
  | JValue.arr _ => "[...]"
  | JValue.obj _ => "map[...]"

/-- RuleEngine.checkAmountCondition. -/
def checkAmountCondition (condition : Condition) (amount : ℚ) : Except String Bool :=
  match condition.value with
  | JValue.num targetValue =>
    match condition.operator with
    | ">" => Except.ok (decide (amount > targetValue))
    | ">=" => Except.ok (decide (amount ≥ targetValue))
    | "<" => Except.ok (decide (amount < targetValue))
    | "<=" => Except.ok (decide (amount ≤ targetValue))
    | "==" => Except.ok (decide (amount = targetValue))
    | "!=" => Except.ok (decide (amount ≠ targetValue))
    | op => Except.error ("unknown operator: " ++ op)
  | _ => Except.error "invalid value type for amount"

/-- RuleEngine.checkNumericCondition (same operator table as amount). -/
def checkNumericCondition (condition : Condition) (value : ℚ) : Except String Bool :=
  match condition.value with
  | JValue.num targetValue =>
    match condition.operator with
    | ">" => Except.ok (decide (value > targetValue))
    | ">=" => Except.ok (decide (value ≥ targetValue))
    | "<" => Except.ok (decide (value < targetValue))
    | "<=" => Except.ok (decide (value ≤ targetValue))
    | "==" => Except.ok (decide (value = targetValue))
    | "!=" => Except.ok (decide (value ≠ targetValue))
    | op => Except.error ("unknown operator: " ++ op)
  | _ => Except.error "invalid value type for numeric field"

/-- RuleEngine.checkStringCondition.  The source first asserts
`condition.Value.(string)`; any non-string value (in particular the
decoded list an "in" rule would carry) fails that assertion and returns
the invalid-value-type error before the operator switch is reached.  In
the "in" arm the source then asserts `condition.Value.([]string)`, which
cannot succeed after the string assertion did, so "in" always reports an
error.  `rm` models regexp.MustCompile(target).MatchString. -/
def checkStringCondition (rm : String → String → Bool) (condition : Condition)
    (value : String) : Except String Bool :=
  match condition.value with
  | JValue.str targetValue =>
    match condition.operator with
    | "==" => Except.ok (value == targetValue)
    | "!=" => Except.ok (value != targetValue)
    | "contains" => Except.ok (rm targetValue value)
    | "in" => Except.error "invalid value for 'in' operator"
    | op => Except.error ("unknown operator: " ++ op)
  | _ => Except.error "invalid value type for string field"

/-- RuleEngine.checkMetadataCondition: every key of the condition object
must be present in the transaction metadata with an exactly matching
rendered value; a missing key or mismatch is a non-triggered result,
never an error. -/
def checkMetadataCondition (condition : Condition)
    (metadata : Option (List (String × String))) : Except String Bool :=
  match condition.value with
  | JValue.obj conditions =>
    Except.ok (conditions.all (fun kv =>
      match mlookup metadata kv.1 with
      | none => false
      | some actualValue => actualValue == goFormat kv.2))
  | _ => Except.error "invalid value type for metadata condition"

/-- Go string rendering of a transaction type constant. -/
def TransactionType.toGoString : TransactionType → String
  | TransactionType.deposit => "deposit"
  | TransactionType.withdrawal => "withdrawal"
  | TransactionType.transfer => "transfer"

/-- RuleEngine.checkCondition: dispatch on the condition field. -/
def checkCondition (rm : String → String → Bool) (condition : Condition)
    (tx : Transaction) : Except String Bool :=
  match condition.field with
  | "amount" => checkAmountCondition condition tx.amount
  | "currency" => checkStringCondition rm condition tx.currency
  | "type" => checkStringCondition rm condition tx.txType.toGoString
  | "risk_score" => checkNumericCondition condition (tx.riskScore : ℚ)
  | "metadata" => checkMetadataCondition condition tx.metadata
  | f => Except.error ("unknown field: " ++ f)

/-- RuleEngine.evaluateRule: parse the condition, check it, and parse the
action only for a triggered rule; any failure is reported as this rule's
error. -/
def evaluateRule (rm : String → String → Bool) (rule : Rule) (tx : Transaction) :
    Except String RuleResult :=
  match rule.condition with
  | Except.error e => Except.error ("failed to parse condition: " ++ e)
  | Except.ok condition =>
    match checkCondition rm condition tx with
    | Except.error e => Except.error ("failed to check condition: " ++ e)
    | Except.ok triggered =>
      if triggered then
        match rule.action with
        | Except.error e => Except.error ("failed to parse action: " ++ e)
        | Except.ok action =>
          Except.ok { ruleID := rule.id, ruleName := rule.name, triggered := true,
                      action := action, description := rule.description }
      else
        Except.ok { ruleID := rule.id, ruleName := rule.name, triggered := false,
                    action := emptyRuleAction, description := rule.description }

/-- RuleEngine.getRulePriority: resolve a priority from the cached rule
list by ID, defaulting to 0 (the repository fallback concerns rules
absent from the cache). -/
def getRulePriority (rules : List Rule) (ruleID : String) : Int :=
  match rules.find? (fun r => r.id == ruleID) with
  | some rule => rule.priority
  | none => 0

/-- The collection loop of RuleEngine.EvaluateRules: a rule whose
evaluation errors is logged and skipped; a triggered result is appended. -/
def evalRulesLoop (rm : String → String → Bool) (tx : Transaction) :
    List Rule → List RuleResult → List RuleResult
  | [], results => results
  | rule :: rest, results =>
    match evaluateRule rm rule tx with
    | Except.error _ => evalRulesLoop rm tx rest results
    | Except.ok result =>
      if result.triggered then evalRulesLoop rm tx rest (results ++ [result])
      else evalRulesLoop rm tx rest results

/-- The slices.SortFunc pass of EvaluateRules ordering triggered results
by the priority of the owning rule. -/
def sortResults (rules : List Rule) (results : List RuleResult) : List RuleResult :=
  results.mergeSort (fun a b =>
    decide (getRulePriority rules a.ruleID ≤ getRulePriority rules b.ruleID))

/-- RuleEngine.EvaluateRules given the active-rule list (the cache fetch
succeeded; the only error return of the source is a failed fetch). -/
def evaluateRules (rm : String → String → Bool) (rules : List Rule)
    (tx : Transaction) : Except String (List RuleResult) :=
  Except.ok (sortResults rules (evalRulesLoop rm tx rules []))

/-- The multiset of well-formed triggered results, the characterization
EvaluateRules is proved against. -/
def triggeredResults (rm : String → String → Bool) (rules : List Rule)
    (tx : Transaction) : List RuleResult :=
  rules.filterMap (fun rule =>
    match evaluateRule rm rule tx with
    | Except.error _ => none
    | Except.ok result => if result.triggered then some result else none)

/-! ## RuleEngine.ExecuteAction (separate entry point) -/

/-- Outcome of an action handler: a normal return with the updated
transaction, an error return, or a runtime panic (the source writes into
`tx.Metadata` in two handlers without a nil check; assigning into a nil Go
map panics). -/
inductive ActionOutcome
  | ok (tx : Transaction)
  | err (msg : String)
  | goPanic

/-- Go `params[k].(string)` with discarded ok flag: the string value when
present, the zero value "" otherwise. -/
def getStringParam (params : List (String × JValue)) (k : String) : String :=
  match params.find? (fun p => p.1 == k) with
  | some (_, JValue.str s) => s
  | _ => ""

/-- Go `params[k].(float64)` with discarded ok flag. -/
def getNumParam (params : List (String × JValue)) (k : String) : ℚ :=
  match params.find? (fun p => p.1 == k) with
  | some (_, JValue.num x) => x
  | _ => 0

/-- Go float64-to-int conversion (truncation toward zero). -/
def goTruncToInt (q : ℚ) : Int :=
  if q ≥ 0 then q.floor else q.ceil

/-- RuleEngine.handleFlagAction: initializes a nil metadata map before
writing the flagged reason, so it never panics. -/
def handleFlagAction (action : RuleAction) (tx : Transaction) : ActionOutcome :=
  let reason := getStringParam action.params "reason"
  let m := match tx.metadata with
    | none => []
    | some m => m
  ActionOutcome.ok { tx with metadata := some (mapSet m "flagged_reason" reason) }

/-- RuleEngine.handleBlockAction: sets status failed and writes the block
reason into the metadata map with no nil check — a nil map panics. -/
def handleBlockAction (action : RuleAction) (tx : Transaction) : ActionOutcome :=
  let reason := getStringParam action.params "reason"
  match tx.metadata with
  | none => ActionOutcome.goPanic
  | some m =>
    ActionOutcome.ok { tx with status := TransactionStatus.failed,
                               metadata := some (mapSet m "block_reason" reason) }

/-- RuleEngine.handleApprovalAction: sets status pending and writes the
approval marker into the metadata map with no nil check — a nil map
panics. -/
def handleApprovalAction (tx : Transaction) : ActionOutcome :=
  match tx.metadata with
  | none => ActionOutcome.goPanic
  | some m =>
    ActionOutcome.ok { tx with status := TransactionStatus.pending,
                               metadata := some (mapSet m "requires_approval" "true") }

/-- RuleEngine.handleNotifyAction: log only. -/
def handleNotifyAction (tx : Transaction) : ActionOutcome :=
  ActionOutcome.ok tx

/-- RuleEngine.handleRiskAdjustAction: add the truncated adjustment and
clamp the risk score to [0, 100]. -/
def handleRiskAdjustAction (action : RuleAction) (tx : Transaction) : ActionOutcome :=
  let adjustment := getNumParam action.params "adjustment"
  let r := tx.riskScore + goTruncToInt adjustment
  let r := if r > 100 then 100 else r
  let r := if r < 0 then 0 else r
  ActionOutcome.ok { tx with riskScore := r }

/-- RuleEngine.ExecuteAction: dispatch on the action type. -/
def executeAction (action : RuleAction) (tx : Transaction) : ActionOutcome :=
  match action.actionType with
  | "flag_transaction" => handleFlagAction action tx
  | "block_transaction" => handleBlockAction action tx
  | "require_approval" => handleApprovalAction tx
  | "notify" => handleNotifyAction tx
  | "adjust_risk_score" => handleRiskAdjustAction action tx
  | t => ActionOutcome.err ("unknown action type: " ++ t)

/-! ## Processor (TransactionProcessor.ProcessTransaction) -/

/-- Payload of the suspicious-transaction event (risk_score and flags). -/
structure EventPayload where
  riskScore : Int
  flags : List String
deriving DecidableEq

/-- domain.TransactionEvent as emitted on the event channel. -/
structure TransactionEvent where
  transactionID : String
  eventType : String
  payload : EventPayload
deriving DecidableEq

/-- The process-level state threaded through ProcessTransaction: the
validator's duplicate-ID set, the account store, the transactions saved
so far (the transaction store), the events emitted on the channel, and
the transactions_processed metric counter. -/
structure ProcState where
  seen : List String
  accounts : List Account
  savedTxs : List Transaction
  events : List TransactionEvent
  processedMetric : Int
deriving DecidableEq

/-- TransactionRepository.Save from the in-memory store (the second
document of internal/repository/memory/repository_test.go): the save
fails with the duplicate error when a transaction with this ID is
already stored, and otherwise records the transaction.  The
account-to-transaction index the source also appends to and the
UpdatedAt timestamp it sets are read by no embedded operation and are
omitted; the ID-keyed map is the list keyed by `id`. -/
def saveTransaction (savedTxs : List Transaction) (tx : Transaction) :
    Option (List Transaction) :=
  if savedTxs.any (fun t => t.id == tx.id) then none
  else some (savedTxs ++ [tx])

/-- Error returns of ProcessTransaction. -/
inductive ProcErr
  | validationFailed (outcome : ValidateOutcome)
  | ruleEvaluationFailed
  | ledger (e : PErr)
  | saveFailed
deriving DecidableEq

/-- The tail of ProcessTransaction after the risk branch: persist the
transaction and count the processed metric only on successful persist. -/
def finishSave (s : ProcState) (tx : Transaction) :
    ProcState × Transaction × Option ProcErr :=
  match saveTransaction s.savedTxs tx with
  | none => (s, tx, some ProcErr.saveFailed)
  | some saved =>
    ({ s with savedTxs := saved, processedMetric := s.processedMetric + 1 }, tx, none)

/-- TransactionProcessor.ProcessTransaction.  Wall-clock inputs are the
current `hour` (fraud detector) and the `futureDated` comparison
(validator); `vols` carries the repository volume figures for the limit
checks; `rm` and `rules` parameterize the rule engine as in
`evaluateRules` (with the active-rule list available the evaluation never
errors, and its results are logged only).  The call returns the new
process state, the transaction as annotated/statused by the call, and the
returned error. -/
def processTransaction (s : ProcState) (tx : Transaction) (hour : Nat)
    (futureDated : Bool) (vols : Volumes) (rm : String → String → Bool)
    (rules : List Rule) : ProcState × Transaction × Option ProcErr :=
  match validateTransaction s.seen tx futureDated with
  | (ValidateOutcome.duplicate, seen') =>
    ({ s with seen := seen' }, tx, some (ProcErr.validationFailed ValidateOutcome.duplicate))
  | (ValidateOutcome.aggregated errs, seen') =>
    ({ s with seen := seen' }, tx,
      some (ProcErr.validationFailed (ValidateOutcome.aggregated errs)))
  | (ValidateOutcome.ok, seen') =>
    let s1 := { s with seen := seen' }
    let risk := (analyzeTransaction tx hour).1
    let flags := (analyzeTransaction tx hour).2
    let tx1 := { tx with riskScore := risk, fraudFlags := flags }
    match evaluateRules rm rules tx1 with
    | Except.error _ => (s1, tx1, some ProcErr.ruleEvaluationFailed)
    | Except.ok _ =>
      if risk > 80 then
        let tx2 := { tx1 with status := TransactionStatus.suspicious }
        let s2 := { s1 with events := s1.events ++
          [{ transactionID := tx2.id, eventType := "transaction_suspicious",
             payload := { riskScore := risk, flags := flags } }] }
        finishSave s2 tx2
      else if risk > 50 then
        finishSave s1 { tx1 with status := TransactionStatus.pending }
      else
        match executeTransaction s1.accounts tx1 vols with
        | (accounts', some e) =>
          ({ s1 with accounts := accounts' }, tx1, some (ProcErr.ledger e))
        | (accounts', none) =>
          finishSave { s1 with accounts := accounts' }
            { tx1 with status := TransactionStatus.completed }

/-! ## Batch runner and balance observations -/

/-- Balance observed through GetByID, 0 for an absent account. -/
def getBalance (accounts : List Account) (id : String) : ℚ :=
  match getByID accounts id with
  | some a => a.balance
  | none => 0

/-- Combined balance of two accounts. -/
def combinedBalance (accounts : List Account) (x y : String) : ℚ :=
  getBalance accounts x + getBalance accounts y

/-- One ProcessTransaction invocation of a concurrent run: the transaction
together with its wall-clock and repository-volume inputs. -/
structure BatchItem where
  tx : Transaction
  hour : Nat
  futureDated : Bool
  vols : Volumes
deriving DecidableEq

/-- A concurrent run of ProcessTransaction calls.  Every balance mutation
in the source executes under the processor's single mutex, so a concurrent
run is equivalent to executing the calls one after another in the order
the mutex grants them; `batch` is that serialization order. -/
def runBatch (rm : String → String → Bool) (rules : List Rule) (s : ProcState)
    (batch : List BatchItem) : ProcState :=
  batch.foldl
    (fun st b => (processTransaction st b.tx b.hour b.futureDated b.vols rm rules).1) s

/-- The concrete transaction refuting C5: a deposit with a negative
amount, which fails aggregated validation on the first call. -/
def c5BadTx : Transaction :=
  { id := "t1", txType := TransactionType.deposit, amount := -5, currency := "USD",
    fromAccountID := "", toAccountID := "acc2", status := TransactionStatus.pending,
    metadata := none, riskScore := 0, fraudFlags := [] }

/-- The corrected resubmission of `c5BadTx`, keeping the identifier. -/
def c5GoodTx : Transaction := { c5BadTx with amount := 100 }

/-- The weighted sum of the triggered detectors, as C6 words it
(reference registry weights 30, 25, 35, 40). -/
def specBaseScore (tx : Transaction) (hour : Nat) : Int :=
  (if (detectLargeAmount tx).1 then 30 else 0)
    + (if (detectFrequentTransactions tx hour).1 then 25 else 0)
    + (if (detectGeographicalAnomaly tx).1 then 35 else 0)
    + (if (detectVelocityAnomaly tx).1 then 40 else 0)

/-- The risk score as C6 words it: the sum of the triggered weights, a
flat +15 surcharge only when that sum is nonzero and the hour lies in
the 23:00-05:59 window, clamped to [0, 100]. -/
def specScore (tx : Transaction) (hour : Nat) : Int :=
  min (if specBaseScore tx hour ≠ 0 ∧ (23 ≤ hour ∨ hour ≤ 5)
       then specBaseScore tx hour + 15 else specBaseScore tx hour) 100

/-- A concrete regex-match model for rule-engine evaluations at concrete
inputs (the claims settled here never reach the contains operator). -/
def rmNever : String → String → Bool := fun _ _ => false

/-- The C8 condition as json.Unmarshal decodes it: field currency,
operator in, value the list ["USD", "EUR"]. -/
def c8Condition : Condition :=
  { field := "currency", operator := "in",
    value := JValue.arr [JValue.str "USD", JValue.str "EUR"] }

/-- A transaction whose currency is a member of the C8 condition list. -/
def c8Tx : Transaction :=
  { id := "t8", txType := TransactionType.deposit, amount := 100, currency := "USD",
    fromAccountID := "", toAccountID := "a2", status := TransactionStatus.pending,
    metadata := none, riskScore := 0, fraudFlags := [] }

/-- Witness account x: active USD account with balance 100 and no
configured limits. -/
def wAccX : Account :=
  { id := "x", balance := 100, currency := "USD", status := AccountStatus.active,
    dailyLimit := 0, monthlyLimit := 0 }

/-- Witness account y: active USD account with balance 50. -/
def wAccY : Account :=
  { id := "y", balance := 50, currency := "USD", status := AccountStatus.active,
    dailyLimit := 0, monthlyLimit := 0 }

/-- Witness volume figures: nothing spent yet. -/
def wVols : Volumes := { dailyVolume := 0, monthlyVolume := 0, dailyWithdrawal := 0 }

/-- Witness transfer of 30 from x to y. -/
def wTransferTx : Transaction :=
  { id := "t1", txType := TransactionType.transfer, amount := 30, currency := "USD",
    fromAccountID := "x", toAccountID := "y", status := TransactionStatus.pending,
    metadata := none, riskScore := 0, fraudFlags := [] }

/-- Witness process state holding accounts x and y. -/
def wState : ProcState :=
  { seen := [], accounts := [wAccX, wAccY], savedTxs := [], events := [],
    processedMetric := 0 }

/-- Witness deposit without a destination account: its ledger operation
errors with the to-account-required condition. -/
def wBadDepositTx : Transaction :=
  { id := "t2", txType := TransactionType.deposit, amount := 10, currency := "USD",
    fromAccountID := "", toAccountID := "", status := TransactionStatus.pending,
    metadata := none, riskScore := 0, fraudFlags := [] }

/-- Witness process state with an empty account store. -/
def wEmptyState : ProcState :=
  { seen := [], accounts := [], savedTxs := [], events := [], processedMetric := 0 }

/-- Witness account for the insufficient-funds withdrawal. -/
def wWithdrawAcc : Account :=
  { id := "w", balance := 40, currency := "USD", status := AccountStatus.active,
    dailyLimit := 0, monthlyLimit := 0 }

/-- Witness withdrawal of 50 against a balance of 40. -/
def wWithdrawTx : Transaction :=
  { id := "t3", txType := TransactionType.withdrawal, amount := 50, currency := "USD",
    fromAccountID := "w", toAccountID := "", status := TransactionStatus.pending,
    metadata := none, riskScore := 0, fraudFlags := [] }

/-- Witness resubmission of the corrected transaction under a fresh
identifier. -/
def wFreshIdTx : Transaction := { c5GoodTx with id := "t2fresh" }

/-- Witness transaction with amount 20000 for the fraud-score claim. -/
def wLargeTx : Transaction :=
  { id := "t6", txType := TransactionType.deposit, amount := 20000, currency := "USD",
    fromAccountID := "", toAccountID := "a", status := TransactionStatus.pending,
    metadata := none, riskScore := 0, fraudFlags := [] }

/-- Witness rule whose stored condition fails to parse. -/
def wBadRule : Rule :=
  { id := "rb", name := "bad", description := "",
    condition := Except.error "boom", action := Except.error "boom",
    priority := 0, isActive := true }

/-- Witness well-formed rule: amount above 1000 triggers a notify
action. -/
def wGoodRule : Rule :=
  { id := "rg", name := "good", description := "",
    condition := Except.ok { field := "amount", operator := ">", value := JValue.num 1000 },
    action := Except.ok { actionType := "notify", params := [], message := "" },
    priority := 1, isActive := true }

/-- Witness transaction of amount 1500, triggering the good rule. -/
def wRuleTx : Transaction :=
  { id := "t7", txType := TransactionType.deposit, amount := 1500, currency := "USD",
    fromAccountID := "", toAccountID := "a", status := TransactionStatus.pending,
    metadata := none, riskScore := 0, fraudFlags := [] }

/-- Witness batch item: one serialized ProcessTransaction transfer call. -/
def wBatchItem : BatchItem :=
  { tx := wTransferTx, hour := 12, futureDated := false, vols := wVols }

/-- Witness batch item for a second transfer under a distinct identifier. -/
def wBatchItem2 : BatchItem :=
  { tx := { wTransferTx with id := "t1b" }, hour := 12, futureDated := false,
    vols := wVols }

/-- Witness block_transaction action. -/
def wBlockAction : RuleAction :=
  { actionType := "block_transaction", params := [], message := "" }

/-- Witness require_approval action. -/
def wApproveAction : RuleAction :=
  { actionType := "require_approval", params := [], message := "" }

/-- Witness flag_transaction action. -/
def wFlagAction : RuleAction :=
  { actionType := "flag_transaction", params := [], message := "" }

/-- Witness transaction carrying a nil metadata map. -/
def wNilMetaTx : Transaction :=
  { id := "t10", txType := TransactionType.deposit, amount := 10, currency := "USD",
    fromAccountID := "", toAccountID := "", status := TransactionStatus.pending,
    metadata := none, riskScore := 0, fraudFlags := [] }

/-! ## Store lemmas -/

lemma getByID_id {accounts : List Account} {i : String} {a : Account}
    (h : getByID accounts i = some a) : a.id = i := by
  have := List.find?_some h
  simpa using this

lemma find?_update_self (a : Account) (accounts : List Account)
    (h : accounts.any (fun c => c.id == a.id) = true) :
    (accounts.map (fun c => if c.id == a.id then a else c)).find?
      (fun c => c.id == a.id) = some a := by
  induction accounts with
  | nil => simp at h
  | cons b rest ih =>
    rw [List.map_cons]
    cases hb : (b.id == a.id) with
    | true =>
      rw [show (if true = true then a else b) = a from by simp]
      exact List.find?_cons_of_pos _ (by simp)
    | false =>
      rw [show (if false = true then a else b) = b from by simp]
      rw [List.find?_cons_of_neg _ (by simp [hb])]
      have hrest : rest.any (fun c => c.id == a.id) = true := by
        simpa [hb] using h
      exact ih hrest

lemma find?_update_other (a : Account) (i : String) (hne : (a.id == i) = false)
    (accounts : List Account) :
    (accounts.map (fun c => if c.id == a.id then a else c)).find?
      (fun c => c.id == i) = accounts.find? (fun c => c.id == i) := by
  induction accounts with
  | nil => simp
  | cons b rest ih =>
    rw [List.map_cons]
    cases hb : (b.id == a.id) with
    | true =>
      have hbid : b.id = a.id := eq_of_beq hb
      rw [show (if true = true then a else b) = a from by simp]
      rw [List.find?_cons_of_neg _ (by simp [hne]),
          List.find?_cons_of_neg _ (by simp [hbid, hne])]
      exact ih
    | false =>
      rw [show (if false = true then a else b) = b from by simp]
      cases hbi : (b.id == i) with
      | true =>
        rw [List.find?_cons_of_pos _ (by simp [hbi]),
            List.find?_cons_of_pos _ (by simp [hbi])]
      | false =>
        rw [List.find?_cons_of_neg _ (by simp [hbi]),
            List.find?_cons_of_neg _ (by simp [hbi])]
        exact ih

lemma updateAccount_of_getByID {accounts : List Account} (a : Account) {b : Account}
    (h : getByID accounts a.id = some b) :
    ∃ l, updateAccount accounts a = some l ∧
      getByID l a.id = some a ∧
      ∀ i, (a.id == i) = false → getByID l i = getByID accounts i := by
  have hmem : b ∈ accounts := List.mem_of_find?_eq_some h
  have hpred : (b.id == a.id) = true := by
    have := List.find?_some h
    simpa using this
  have hany : accounts.any (fun c => c.id == a.id) = true :=
    List.any_eq_true.2 ⟨b, hmem, hpred⟩
  refine ⟨accounts.map (fun c => if c.id == a.id then a else c), ?_, ?_, ?_⟩
  · simp [updateAccount, hany]
  · exact find?_update_self a accounts hany
  · intro i hi
    exact find?_update_other a i hi accounts

lemma finishSave_accounts (s : ProcState) (tx : Transaction) :
    (finishSave s tx).1.accounts = s.accounts := by
  unfold finishSave
  cases saveTransaction s.savedTxs tx <;> rfl

lemma finishSave_events (s : ProcState) (tx : Transaction) :
    (finishSave s tx).1.events = s.events := by
  unfold finishSave
  cases saveTransaction s.savedTxs tx <;> rfl

lemma finishSave_tx (s : ProcState) (tx : Transaction) :
    (finishSave s tx).2.1 = tx := by
  unfold finishSave
  cases saveTransaction s.savedTxs tx <;> rfl

lemma processTransfer_spec (accounts : List Account) (tx : Transaction)
    (dv mv : ℚ) (x y : Account)
    (hx : getByID accounts tx.fromAccountID = some x)
    (hy : getByID accounts tx.toAccountID = some y)
    (hne : tx.fromAccountID ≠ tx.toAccountID)
    (hcur : x.currency = y.currency)
    (hxa : x.status = AccountStatus.active)
    (hya : y.status = AccountStatus.active)
    (hbal : tx.amount ≤ x.balance)
    (hlim : checkAccountLimits x tx dv mv = none) :
    ∃ l, processTransfer accounts tx dv mv = (l, none) ∧
      getByID l tx.fromAccountID = some { x with balance := x.balance - tx.amount } ∧
      getByID l tx.toAccountID = some { y with balance := y.balance + tx.amount } := by
  have hxid : x.id = tx.fromAccountID := getByID_id hx
  have hyid : y.id = tx.toAccountID := getByID_id hy
  have hgx : getByID accounts
      ({ x with balance := x.balance - tx.amount } : Account).id = some x := by
    simpa [hxid] using hx
  obtain ⟨l1, hu1, hself1, hother1⟩ := updateAccount_of_getByID _ hgx
  have h1to : getByID l1 tx.toAccountID = some y := by
    rw [hother1 tx.toAccountID (by simp [hxid]; exact hne)]
    exact hy
  have hgy : getByID l1
      ({ y with balance := y.balance + tx.amount } : Account).id = some y := by
    simpa [hyid] using h1to
  obtain ⟨l2, hu2, hself2, hother2⟩ := updateAccount_of_getByID _ hgy
  refine ⟨l2, ?_, ?_, ?_⟩
  · simp only [processTransfer, hx, hy]
    rw [if_neg (by simp [hcur]), if_neg (by simp [hxa]), if_neg (by simp [hya]),
      if_neg (not_lt.2 hbal), hlim]
    simp only [hu1, hu2]
  · rw [hother2 tx.fromAccountID (by simp [hyid]; exact (Ne.symm hne))]
    simpa [hxid] using hself1
  · simpa [hyid] using hself2

/-- C1: a transfer with analyzed risk score at most 50, between two
distinct existing active accounts of the same currency where the source
holds at least the amount and the volume limits pass, leaves the source
debited and the destination credited by the amount, preserves their
combined balance, and returns the transaction with status completed. -/
theorem c1_transfer_completes
    (s : ProcState) (tx : Transaction) (hour : Nat) (futureDated : Bool)
    (vols : Volumes) (rm : String → String → Bool) (rules : List Rule)
    (x y : Account)
    (htype : tx.txType = TransactionType.transfer)
    (hseen : s.seen.contains tx.id = false)
    (herrs : collectErrs tx futureDated = [])
    (hrisk : (analyzeTransaction tx hour).1 ≤ 50)
    (hx : getByID s.accounts tx.fromAccountID = some x)
    (hy : getByID s.accounts tx.toAccountID = some y)
    (hcur : x.currency = y.currency)
    (hxa : x.status = AccountStatus.active)
    (hya : y.status = AccountStatus.active)
    (hbal : tx.amount ≤ x.balance)
    (hlim : checkAccountLimits x tx vols.dailyVolume vols.monthlyVolume = none) :
    getByID (processTransaction s tx hour futureDated vols rm rules).1.accounts
        tx.fromAccountID = some { x with balance := x.balance - tx.amount } ∧
    getByID (processTransaction s tx hour futureDated vols rm rules).1.accounts
        tx.toAccountID = some { y with balance := y.balance + tx.amount } ∧
    combinedBalance (processTransaction s tx hour futureDated vols rm rules).1.accounts
        tx.fromAccountID tx.toAccountID = x.balance + y.balance ∧
    (processTransaction s tx hour futureDated vols rm rules).2.1.status =
        TransactionStatus.completed := by
  have hne : tx.fromAccountID ≠ tx.toAccountID := by
    intro h
    simp [collectErrs, htype, h] at herrs
  have hmem : tx.id ∉ s.seen := by simpa using hseen
  have hval : validateTransaction s.seen tx futureDated =
      (ValidateOutcome.ok, tx.id :: s.seen) := by
    simp [validateTransaction, hmem, herrs]
  obtain ⟨l, hpt, hfrom, hto⟩ :=
    processTransfer_spec s.accounts
      { tx with riskScore := (analyzeTransaction tx hour).1,
                fraudFlags := (analyzeTransaction tx hour).2 }
      vols.dailyVolume vols.monthlyVolume x y hx hy hne hcur hxa hya hbal hlim
  simp only at hfrom hto
  have h80 : ¬ ((analyzeTransaction tx hour).1 > 80) := by omega
  have h50 : ¬ ((analyzeTransaction tx hour).1 > 50) := by omega
  have hexec : executeTransaction s.accounts
      { tx with riskScore := (analyzeTransaction tx hour).1,
                fraudFlags := (analyzeTransaction tx hour).2 } vols = (l, none) := by
    simp only [executeTransaction, htype]
    exact hpt
  simp only [processTransaction, hval, evaluateRules]
  rw [if_neg h80, if_neg h50, hexec]
  refine ⟨?_, ?_, ?_, ?_⟩
  · rw [finishSave_accounts]
    exact hfrom
  · rw [finishSave_accounts]
    exact hto
  · rw [finishSave_accounts]
    simp only [combinedBalance, getBalance, hfrom, hto]
    ring
  · rw [finishSave_tx]

/-- C2: after validation passes, ProcessTransaction routes on the
annotated risk score: above 80 the status is suspicious, exactly one
transaction_suspicious event carrying the score and flags is emitted and
the accounts are untouched; in (50, 80] the status is pending with no
mutation and no event; at most 50 the ledger operation runs, a success
yields status completed with the mutated store, and a ledger error is
returned to the caller with the status left unchanged (never failed). -/
theorem c2_risk_routing
    (s : ProcState) (tx : Transaction) (hour : Nat) (futureDated : Bool)
    (vols : Volumes) (rm : String → String → Bool) (rules : List Rule)
    (hseen : s.seen.contains tx.id = false)
    (herrs : collectErrs tx futureDated = []) :
    ((analyzeTransaction tx hour).1 > 80 →
      (processTransaction s tx hour futureDated vols rm rules).2.1.status =
          TransactionStatus.suspicious ∧
      (processTransaction s tx hour futureDated vols rm rules).1.events =
        s.events ++ [{ transactionID := tx.id, eventType := "transaction_suspicious",
                       payload := { riskScore := (analyzeTransaction tx hour).1,
                                    flags := (analyzeTransaction tx hour).2 } }] ∧
      (processTransaction s tx hour futureDated vols rm rules).1.accounts = s.accounts) ∧
    (50 < (analyzeTransaction tx hour).1 → (analyzeTransaction tx hour).1 ≤ 80 →
      (processTransaction s tx hour futureDated vols rm rules).2.1.status =
          TransactionStatus.pending ∧
      (processTransaction s tx hour futureDated vols rm rules).1.accounts = s.accounts ∧
      (processTransaction s tx hour futureDated vols rm rules).1.events = s.events) ∧
    (∀ accounts', (analyzeTransaction tx hour).1 ≤ 50 →
      executeTransaction s.accounts
        { tx with riskScore := (analyzeTransaction tx hour).1,
                  fraudFlags := (analyzeTransaction tx hour).2 } vols = (accounts', none) →
      (processTransaction s tx hour futureDated vols rm rules).2.1.status =
          TransactionStatus.completed ∧
      (processTransaction s tx hour futureDated vols rm rules).1.accounts = accounts') ∧
    (∀ accounts' e, (analyzeTransaction tx hour).1 ≤ 50 →
      executeTransaction s.accounts
        { tx with riskScore := (analyzeTransaction tx hour).1,
                  fraudFlags := (analyzeTransaction tx hour).2 } vols = (accounts', some e) →
      (processTransaction s tx hour futureDated vols rm rules).2.2 =
          some (ProcErr.ledger e) ∧
      (processTransaction s tx hour futureDated vols rm rules).2.1.status = tx.status ∧
      (processTransaction s tx hour futureDated vols rm rules).1.accounts = accounts') := by
  have hmem : tx.id ∉ s.seen := by simpa using hseen
  have hval : validateTransaction s.seen tx futureDated =
      (ValidateOutcome.ok, tx.id :: s.seen) := by
    simp [validateTransaction, hmem, herrs]
  refine ⟨?_, ?_, ?_, ?_⟩
  · intro h80
    simp only [processTransaction, hval, evaluateRules]
    rw [if_pos h80]
    refine ⟨?_, ?_, ?_⟩
    · rw [finishSave_tx]
    · rw [finishSave_events]
    · rw [finishSave_accounts]
  · intro h50 h80
    simp only [processTransaction, hval, evaluateRules]
    rw [if_neg (by omega), if_pos (by omega)]
    refine ⟨?_, ?_, ?_⟩
    · rw [finishSave_tx]
    · rw [finishSave_accounts]
    · rw [finishSave_events]
  · intro accounts' hr hex
    simp only [processTransaction, hval, evaluateRules]
    rw [if_neg (by omega), if_neg (by omega), hex]
    refine ⟨?_, ?_⟩
    · rw [finishSave_tx]
    · rw [finishSave_accounts]
  · intro accounts' e hr hex
    simp only [processTransaction, hval, evaluateRules]
    rw [if_neg (by omega), if_neg (by omega), hex]
    exact ⟨rfl, rfl, rfl⟩

/-- C3: a withdrawal for more than the balance of an existing active
source account fails with the insufficient-funds error and performs no
mutation: the stored account is unchanged. -/
theorem c3_withdrawal_insufficient_funds
    (accounts : List Account) (tx : Transaction) (dw : ℚ) (a : Account)
    (hne : tx.fromAccountID ≠ "")
    (hget : getByID accounts tx.fromAccountID = some a)
    (hact : a.status = AccountStatus.active)
    (hbal : a.balance < tx.amount) :
    processWithdrawal accounts tx dw = (accounts, some PErr.insufficientFunds) ∧
    getByID (processWithdrawal accounts tx dw).1 tx.fromAccountID = some a := by
  have h : processWithdrawal accounts tx dw = (accounts, some PErr.insufficientFunds) := by
    simp only [processWithdrawal, hget]
    rw [if_neg hne, if_neg (by simp [hact]), if_pos hbal]
  refine ⟨h, ?_⟩
  rw [h]
  exact hget

/-- C4: a first call with a fresh transaction identifier never yields the
duplicate outcome and registers the identifier even when other checks
fail; any later call with the same identifier yields exactly the distinct
duplicate outcome and leaves the seen-set unchanged. -/
theorem c4_duplicate_second_call_only
    (seen : List String) (tx : Transaction) (futureDated : Bool)
    (hfresh : seen.contains tx.id = false) :
    (validateTransaction seen tx futureDated).1 ≠ ValidateOutcome.duplicate ∧
    (validateTransaction seen tx futureDated).2 = tx.id :: seen ∧
    (∀ (tx2 : Transaction) (fd2 : Bool), tx2.id = tx.id →
      validateTransaction (validateTransaction seen tx futureDated).2 tx2 fd2 =
        (ValidateOutcome.duplicate, (validateTransaction seen tx futureDated).2)) := by
  have hmem : tx.id ∉ seen := by simpa using hfresh
  have h2 : (validateTransaction seen tx futureDated).2 = tx.id :: seen := by
    simp only [validateTransaction]
    rw [if_neg (by simpa using hfresh)]
    split <;> rfl
  refine ⟨?_, h2, ?_⟩
  · simp only [validateTransaction]
    rw [if_neg (by simpa using hfresh)]
    split <;> simp
  · intro tx2 fd2 hid
    rw [h2]
    simp [validateTransaction, hid]

/-- C5 counterexample: the first failed validation is not side-effect
free — it registers the identifier — so the corrected resubmission under
the same identifier is rejected as a duplicate instead of passing. -/
theorem c5_counterexample_retry_rejected :
    (validateTransaction [] c5BadTx false).1 =
      ValidateOutcome.aggregated [VErr.invalidAmount] ∧
    (validateTransaction [] c5BadTx false).2 = ["t1"] ∧
    c5GoodTx.id = c5BadTx.id ∧
    collectErrs c5GoodTx false = [] ∧
    (validateTransaction (validateTransaction [] c5BadTx false).2 c5GoodTx false).1 =
      ValidateOutcome.duplicate := by
  decide

/-- C5 as amended: a failed aggregated validation changes the validator
only by registering the identifier; a corrected resubmission passes
validation only under a fresh identifier, while reusing the identifier
fails with the duplicate error. -/
theorem c5_amended_retry_needs_fresh_id
    (seen : List String) (tx : Transaction) (futureDated : Bool)
    (hfresh : seen.contains tx.id = false)
    (hfail : collectErrs tx futureDated ≠ []) :
    validateTransaction seen tx futureDated =
      (ValidateOutcome.aggregated (collectErrs tx futureDated), tx.id :: seen) ∧
    (∀ (tx2 : Transaction) (fd2 : Bool), tx2.id = tx.id →
      (validateTransaction (tx.id :: seen) tx2 fd2).1 = ValidateOutcome.duplicate) ∧
    (∀ (tx2 : Transaction) (fd2 : Bool), (tx.id :: seen).contains tx2.id = false →
      collectErrs tx2 fd2 = [] →
      (validateTransaction (tx.id :: seen) tx2 fd2).1 = ValidateOutcome.ok) := by
  refine ⟨?_, ?_, ?_⟩
  · simp only [validateTransaction]
    rw [if_neg (by simpa using hfresh)]
    rw [if_neg (by simpa using hfail)]
  · intro tx2 fd2 hid
    simp [validateTransaction, hid]
  · intro tx2 fd2 hfresh2 hok2
    have : tx2.id ∉ tx.id :: seen := by simpa using hfresh2
    simp [validateTransaction, this, hok2]

lemma analyzeTransaction_eq_specScore (tx : Transaction) (hour : Nat) :
    (analyzeTransaction tx hour).1 = specScore tx hour := by
  cases h1 : (detectLargeAmount tx).1 <;>
    cases h2 : (detectFrequentTransactions tx hour).1 <;>
      cases h3 : (detectGeographicalAnomaly tx).1 <;>
        cases h4 : (detectVelocityAnomaly tx).1 <;>
          simp [analyzeTransaction, fraudPatterns, specScore, specBaseScore,
            applyTimeBasedModifiers, h1, h2, h3, h4]

lemma specScore_bounds (tx : Transaction) (hour : Nat) :
    0 ≤ specScore tx hour ∧ specScore tx hour ≤ 100 := by
  unfold specScore specBaseScore
  split_ifs <;> omega

lemma analyzeTransaction_flags_large (tx : Transaction) (hour : Nat)
    (h1 : (detectLargeAmount tx).1 = true) :
    "large_amount" ∈ (analyzeTransaction tx hour).2 := by
  cases h2 : (detectFrequentTransactions tx hour).1 <;>
    cases h3 : (detectGeographicalAnomaly tx).1 <;>
      cases h4 : (detectVelocityAnomaly tx).1 <;>
        simp [analyzeTransaction, fraudPatterns, h1, h2, h3, h4] <;>
          simp [detectLargeAmount]

lemma specScore_ge_30 (tx : Transaction) (hour : Nat)
    (h1 : (detectLargeAmount tx).1 = true) :
    30 ≤ specScore tx hour := by
  unfold specScore specBaseScore
  simp only [h1, if_true]
  split_ifs <;> omega

/-- C6: AnalyzeTransaction returns exactly the triggered-weight sum with
the late-night surcharge applied only to a nonzero sum, clamped to
[0, 100]; for an amount of 20000 the flags include large_amount and the
score is at least 30. -/
theorem c6_fraud_score (tx : Transaction) (hour : Nat) :
    (analyzeTransaction tx hour).1 = specScore tx hour ∧
    0 ≤ (analyzeTransaction tx hour).1 ∧
    (analyzeTransaction tx hour).1 ≤ 100 ∧
    (tx.amount = 20000 →
      "large_amount" ∈ (analyzeTransaction tx hour).2 ∧
      30 ≤ (analyzeTransaction tx hour).1) := by
  have heq := analyzeTransaction_eq_specScore tx hour
  have hb := specScore_bounds tx hour
  refine ⟨heq, by rw [heq]; exact hb.1, by rw [heq]; exact hb.2, ?_⟩
  intro ha
  have h1 : (detectLargeAmount tx).1 = true := by
    simp [detectLargeAmount, ha]
    norm_num
  exact ⟨analyzeTransaction_flags_large tx hour h1,
    by rw [heq]; exact specScore_ge_30 tx hour h1⟩

lemma evalRulesLoop_acc (rm : String → String → Bool) (tx : Transaction)
    (rules : List Rule) (acc : List RuleResult) :
    evalRulesLoop rm tx rules acc = acc ++ evalRulesLoop rm tx rules [] := by
  induction rules generalizing acc with
  | nil => simp [evalRulesLoop]
  | cons r rest ih =>
    simp only [evalRulesLoop]
    cases hr : evaluateRule rm r tx with
    | error e => exact ih acc
    | ok result =>
      cases ht : result.triggered with
      | true =>
        simp only [if_pos ht]
        rw [ih (acc ++ [result]), ih ([] ++ [result])]
        simp
      | false =>
        simp only [if_neg (show ¬ result.triggered = true by simp [ht])]
        exact ih acc

lemma evalRulesLoop_eq_triggered (rm : String → String → Bool) (tx : Transaction)
    (rules : List Rule) :
    evalRulesLoop rm tx rules [] = triggeredResults rm rules tx := by
  induction rules with
  | nil => simp [evalRulesLoop, triggeredResults]
  | cons r rest ih =>
    simp only [evalRulesLoop, triggeredResults, List.filterMap_cons]
    cases hr : evaluateRule rm r tx with
    | error e => simpa [triggeredResults] using ih
    | ok result =>
      cases ht : result.triggered with
      | true =>
        simp only [if_pos ht]
        rw [evalRulesLoop_acc]
        simpa [triggeredResults] using ih
      | false =>
        simp only [if_neg (show ¬ result.triggered = true by simp [ht])]
        simpa [triggeredResults] using ih

/-- C7: a rule whose evaluation reports an error (condition or action
parse failure, unknown field or operator) is skipped without aborting
EvaluateRules: the call still returns ok, every other rule is evaluated,
and the returned list is a permutation (the priority ordering) of the
triggered results of the well-formed rules. -/
theorem c7_rule_errors_skipped
    (rm : String → String → Bool) (tx : Transaction) (e : String)
    (pre post : List Rule) (bad : Rule)
    (hbad : evaluateRule rm bad tx = Except.error e) :
    evaluateRules rm (pre ++ bad :: post) tx =
      Except.ok (sortResults (pre ++ bad :: post)
        (triggeredResults rm (pre ++ post) tx)) ∧
    (sortResults (pre ++ bad :: post)
      (triggeredResults rm (pre ++ post) tx)).Perm
        (triggeredResults rm (pre ++ post) tx) := by
  constructor
  · unfold evaluateRules
    rw [evalRulesLoop_eq_triggered]
    have : triggeredResults rm (pre ++ bad :: post) tx =
        triggeredResults rm (pre ++ post) tx := by
      unfold triggeredResults
      simp [List.filterMap_append, List.filterMap_cons, hbad]
    rw [this]
  · unfold sortResults
    exact List.mergeSort_perm _ _

/-- C8: the in operator with a list value is rejected, not evaluated: the
string assertion on the condition value fails before the operator switch,
so the condition reports the invalid-value-type error (and the rule is
treated as non-triggered) even though the transaction's currency is in
the list. -/
theorem c8_in_operator_rejected :
    checkStringCondition rmNever c8Condition "USD" =
      Except.error "invalid value type for string field" ∧
    checkCondition rmNever c8Condition c8Tx =
      Except.error "invalid value type for string field" := by
  exact ⟨rfl, rfl⟩

lemma processTransfer_preserves (accounts : List Account) (tx : Transaction)
    (dv mv : ℚ) (hxy : tx.fromAccountID ≠ tx.toAccountID) :
    combinedBalance (processTransfer accounts tx dv mv).1
        tx.fromAccountID tx.toAccountID =
      combinedBalance accounts tx.fromAccountID tx.toAccountID := by
  cases hx : getByID accounts tx.fromAccountID with
  | none => simp [processTransfer, hx]
  | some fa =>
  cases hy : getByID accounts tx.toAccountID with
  | none => simp [processTransfer, hx, hy]
  | some ta =>
  by_cases h1 : fa.currency ≠ ta.currency
  · simp [processTransfer, hx, hy, h1]
  by_cases h2 : fa.status ≠ AccountStatus.active
  · simp [processTransfer, hx, hy, h1, h2]
  by_cases h3 : ta.status ≠ AccountStatus.active
  · simp [processTransfer, hx, hy, h1, h2, h3]
  by_cases h4 : fa.balance < tx.amount
  · simp [processTransfer, hx, hy, h1, h2, h3, h4]
  cases hlim : checkAccountLimits fa tx dv mv with
  | some e => simp [processTransfer, hx, hy, h1, h2, h3, h4, hlim]
  | none =>
    obtain ⟨l, hpt, hfrom, hto⟩ :=
      processTransfer_spec accounts tx dv mv fa ta hx hy hxy
        (not_not.1 h1) (not_not.1 h2) (not_not.1 h3) (not_lt.1 h4) hlim
    rw [hpt]
    unfold combinedBalance getBalance
    simp only [hfrom, hto, hx, hy]
    ring

lemma processTransaction_preserves (s : ProcState) (tx : Transaction)
    (hour : Nat) (futureDated : Bool) (vols : Volumes)
    (rm : String → String → Bool) (rules : List Rule)
    (htype : tx.txType = TransactionType.transfer)
    (hxy : tx.fromAccountID ≠ tx.toAccountID) :
    combinedBalance (processTransaction s tx hour futureDated vols rm rules).1.accounts
        tx.fromAccountID tx.toAccountID =
      combinedBalance s.accounts tx.fromAccountID tx.toAccountID := by
  unfold processTransaction
  rcases hv : validateTransaction s.seen tx futureDated with ⟨outcome, seen'⟩
  cases outcome with
  | duplicate => rfl
  | aggregated errs => rfl
  | ok =>
    simp only [evaluateRules]
    split_ifs with h80 h50
    · rw [finishSave_accounts]
    · rw [finishSave_accounts]
    · have hstep : combinedBalance
          (executeTransaction s.accounts
            { tx with riskScore := (analyzeTransaction tx hour).1,
                      fraudFlags := (analyzeTransaction tx hour).2 } vols).1
          tx.fromAccountID tx.toAccountID =
          combinedBalance s.accounts tx.fromAccountID tx.toAccountID := by
        simp only [executeTransaction, htype]
        exact processTransfer_preserves s.accounts
          { tx with riskScore := (analyzeTransaction tx hour).1,
                    fraudFlags := (analyzeTransaction tx hour).2 }
          vols.dailyVolume vols.monthlyVolume hxy
      split
      · next accounts' e heq =>
          have : accounts' = (executeTransaction s.accounts
              { tx with riskScore := (analyzeTransaction tx hour).1,
                        fraudFlags := (analyzeTransaction tx hour).2 } vols).1 := by
            rw [heq]
          rw [this]
          exact hstep
      · next accounts' heq =>
          rw [finishSave_accounts]
          have : accounts' = (executeTransaction s.accounts
              { tx with riskScore := (analyzeTransaction tx hour).1,
                        fraudFlags := (analyzeTransaction tx hour).2 } vols).1 := by
            rw [heq]
          rw [this]
          exact hstep

lemma runBatch_cons (rm : String → String → Bool) (rules : List Rule)
    (s : ProcState) (b : BatchItem) (rest : List BatchItem) :
    runBatch rm rules s (b :: rest) =
      runBatch rm rules
        (processTransaction s b.tx b.hour b.futureDated b.vols rm rules).1 rest := rfl

/-- C9: a concurrent run of transfers from account x to account y — all
balance mutation being serialized by the processor's single mutex, the
run is a fold over some serialization order — leaves the combined balance
of x and y exactly at its pre-run total, whatever each call's validation,
risk tier, limit checks or ledger outcome were. -/
theorem c9_concurrent_transfers_conserve
    (rm : String → String → Bool) (rules : List Rule)
    (s : ProcState) (batch : List BatchItem) (x y : String)
    (hxy : x ≠ y)
    (hbatch : ∀ b ∈ batch, b.tx.txType = TransactionType.transfer ∧
      b.tx.fromAccountID = x ∧ b.tx.toAccountID = y) :
    combinedBalance (runBatch rm rules s batch).accounts x y =
      combinedBalance s.accounts x y := by
  induction batch generalizing s with
  | nil => rfl
  | cons b rest ih =>
    obtain ⟨ht, hf, hto⟩ := hbatch b (by simp)
    have hstep := processTransaction_preserves s b.tx b.hour b.futureDated b.vols
      rm rules ht (by rw [hf, hto]; exact hxy)
    rw [hf, hto] at hstep
    rw [runBatch_cons, ih _ (fun b' hb' => hbatch b' (by simp [hb']))]
    exact hstep

/-- C10: with a nil metadata map, the block_transaction and
require_approval actions panic on the metadata write (no nil check),
while flag_transaction initializes the map first and never panics. -/
theorem c10_nil_metadata_panics
    (action : RuleAction) (tx : Transaction) (hmeta : tx.metadata = none) :
    (action.actionType = "block_transaction" →
      executeAction action tx = ActionOutcome.goPanic) ∧
    (action.actionType = "require_approval" →
      executeAction action tx = ActionOutcome.goPanic) ∧
    (∀ (action2 : RuleAction) (tx2 : Transaction),
      action2.actionType = "flag_transaction" →
      executeAction action2 tx2 ≠ ActionOutcome.goPanic) := by
  refine ⟨?_, ?_, ?_⟩
  · intro ha
    simp [executeAction, ha, handleBlockAction, hmeta]
  · intro ha
    simp [executeAction, ha, handleApprovalAction, hmeta]
  · intro action2 tx2 ha
    cases hm : tx2.metadata <;>
      simp [executeAction, ha, handleFlagAction, hm]

/-- Witness for C1: the concrete transfer of 30 from x (100) to y (50)
completes with balances 100 - 30 and 50 + 30. -/
theorem c1_transfer_completes_witness :
    getByID (processTransaction wState wTransferTx 12 false wVols rmNever []).1.accounts
        wTransferTx.fromAccountID =
      some { wAccX with balance := wAccX.balance - wTransferTx.amount } ∧
    getByID (processTransaction wState wTransferTx 12 false wVols rmNever []).1.accounts
        wTransferTx.toAccountID =
      some { wAccY with balance := wAccY.balance + wTransferTx.amount } ∧
    combinedBalance (processTransaction wState wTransferTx 12 false wVols rmNever []).1.accounts
        wTransferTx.fromAccountID wTransferTx.toAccountID =
      wAccX.balance + wAccY.balance ∧
    (processTransaction wState wTransferTx 12 false wVols rmNever []).2.1.status =
      TransactionStatus.completed :=
  c1_transfer_completes wState wTransferTx 12 false wVols rmNever [] wAccX wAccY
    rfl (by decide) (by decide) (by decide) (by decide) (by decide)
    rfl rfl rfl (by decide) (by decide)

/-- Witness for C2: a low-risk deposit without a destination account has
its ledger error returned while the status stays pending. -/
theorem c2_risk_routing_witness :
    (processTransaction wEmptyState wBadDepositTx 12 false wVols rmNever []).2.2 =
      some (ProcErr.ledger PErr.toAccountRequired) ∧
    (processTransaction wEmptyState wBadDepositTx 12 false wVols rmNever []).2.1.status =
      wBadDepositTx.status ∧
    (processTransaction wEmptyState wBadDepositTx 12 false wVols rmNever []).1.accounts =
      ([] : List Account) :=
  (c2_risk_routing wEmptyState wBadDepositTx 12 false wVols rmNever []
    (by decide) (by decide)).2.2.2 [] PErr.toAccountRequired (by decide) (by decide)

/-- Witness for C3: withdrawing 50 from a balance of 40 fails with
insufficient funds and the account is unchanged. -/
theorem c3_withdrawal_insufficient_funds_witness :
    processWithdrawal [wWithdrawAcc] wWithdrawTx 0 =
      ([wWithdrawAcc], some PErr.insufficientFunds) ∧
    getByID (processWithdrawal [wWithdrawAcc] wWithdrawTx 0).1
        wWithdrawTx.fromAccountID = some wWithdrawAcc :=
  c3_withdrawal_insufficient_funds [wWithdrawAcc] wWithdrawTx 0 wWithdrawAcc
    (by decide) (by decide) rfl (by decide)

/-- Witness for C4: the identifier is registered on the first call and
only the second call yields the duplicate outcome. -/
theorem c4_duplicate_second_call_only_witness :
    (validateTransaction [] wBadDepositTx false).2 = wBadDepositTx.id :: [] ∧
    validateTransaction (validateTransaction [] wBadDepositTx false).2
        wBadDepositTx false =
      (ValidateOutcome.duplicate, (validateTransaction [] wBadDepositTx false).2) :=
  ⟨(c4_duplicate_second_call_only [] wBadDepositTx false (by decide)).2.1,
   (c4_duplicate_second_call_only [] wBadDepositTx false (by decide)).2.2
     wBadDepositTx false rfl⟩

/-- Witness for the amended C5: the failed first call registers t1, the
same-identifier retry is a duplicate, a fresh-identifier retry passes. -/
theorem c5_amended_retry_needs_fresh_id_witness :
    validateTransaction [] c5BadTx false =
      (ValidateOutcome.aggregated (collectErrs c5BadTx false), c5BadTx.id :: []) ∧
    (validateTransaction (c5BadTx.id :: []) c5GoodTx false).1 =
      ValidateOutcome.duplicate ∧
    (validateTransaction (c5BadTx.id :: []) wFreshIdTx false).1 = ValidateOutcome.ok :=
  ⟨(c5_amended_retry_needs_fresh_id [] c5BadTx false (by decide) (by decide)).1,
   (c5_amended_retry_needs_fresh_id [] c5BadTx false (by decide) (by decide)).2.1
     c5GoodTx false rfl,
   (c5_amended_retry_needs_fresh_id [] c5BadTx false (by decide) (by decide)).2.2
     wFreshIdTx false (by decide) (by decide)⟩

/-- Witness for C6: amount 20000 at noon carries the large_amount flag
with a score of at least 30, and the score equals the spec formula. -/
theorem c6_fraud_score_witness :
    (analyzeTransaction wLargeTx 12).1 = specScore wLargeTx 12 ∧
    "large_amount" ∈ (analyzeTransaction wLargeTx 12).2 ∧
    30 ≤ (analyzeTransaction wLargeTx 12).1 :=
  ⟨(c6_fraud_score wLargeTx 12).1,
   ((c6_fraud_score wLargeTx 12).2.2.2 rfl).1,
   ((c6_fraud_score wLargeTx 12).2.2.2 rfl).2⟩

/-- Witness for C7: one unparseable rule alongside one triggered rule is
skipped and the triggered result is still returned. -/
theorem c7_rule_errors_skipped_witness :
    evaluateRules rmNever ([wGoodRule] ++ wBadRule :: []) wRuleTx =
      Except.ok (sortResults ([wGoodRule] ++ wBadRule :: [])
        (triggeredResults rmNever ([wGoodRule] ++ []) wRuleTx)) ∧
    (sortResults ([wGoodRule] ++ wBadRule :: [])
      (triggeredResults rmNever ([wGoodRule] ++ []) wRuleTx)).Perm
        (triggeredResults rmNever ([wGoodRule] ++ []) wRuleTx) :=
  c7_rule_errors_skipped rmNever wRuleTx ("failed to parse condition: " ++ "boom")
    [wGoodRule] [] wBadRule rfl

/-- Witness for C9: two serialized transfers of 10 from x to y keep the
combined balance of x and y at its pre-run total. -/
theorem c9_concurrent_transfers_conserve_witness :
    combinedBalance (runBatch rmNever [] wState [wBatchItem, wBatchItem2]).accounts
        "x" "y" =
      combinedBalance wState.accounts "x" "y" :=
  c9_concurrent_transfers_conserve rmNever [] wState [wBatchItem, wBatchItem2]
    "x" "y" (by decide) (by decide)

/-- Witness for C10: on a nil metadata map, block and approval actions
panic while the flag action does not. -/
theorem c10_nil_metadata_panics_witness :
    executeAction wBlockAction wNilMetaTx = ActionOutcome.goPanic ∧
    executeAction wApproveAction wNilMetaTx = ActionOutcome.goPanic ∧
    executeAction wFlagAction wNilMetaTx ≠ ActionOutcome.goPanic :=
  ⟨(c10_nil_metadata_panics wBlockAction wNilMetaTx rfl).1 rfl,
   (c10_nil_metadata_panics wApproveAction wNilMetaTx rfl).2.1 rfl,
   (c10_nil_metadata_panics wBlockAction wNilMetaTx rfl).2.2 wFlagAction wNilMetaTx rfl⟩
